import Mathlib

/-!
# OUFS library (`project3/oufs_lib.c`)

A shallow embedding of the functions of `oufs_lib.c`:
`oufs_format_disk`, `inode_compare_to`, `oufs_list`, `oufs_mkdir` and
`oufs_rmdir`.

* C `int` is `Int`; the unsigned block and inode references are `Nat`.
* The virtual disk is a function from block reference to block, together with
  the outcome of every upcoming `virtual_disk_write_block` and
  `virtual_disk_read_block` call (a call can report an error).
* `fprintf(stderr, fmt, args...)` appends one record (the format string and
  its arguments) to the `stderr` field of the state.
* A `BLOCK` is `next_block` plus a union; the union is a tagged value here and
  a block is read through a view (`asInodes`, `asDirectory`, `asMaster`).  A
  view is defined on the member that was stored and on a zero-filled block;
  reading another member depends on the byte layout and is left undefined
  (`none`).
* Locals that the C code reads without having initialised them are
  parameters of the embedding.
-/

namespace OUFS

/-! ## Constants and types of `oufs.h`

The header is not part of the sources.  `N_BLOCKS`, `N_INODE_BLOCKS`,
`ROOT_DIRECTORY_BLOCK`, `ROOT_DIRECTORY_INODE` and `MASTER_BLOCK_REFERENCE`
have the values that `oufs_format_disk` hardcodes (first free block 6, last
block 127, inode 0 is the root).  The unsigned 16-bit types `BLOCK_REFERENCE`
and `INODE_REFERENCE` are `Nat`. -/

/-- Modelled from the spec: total number of blocks of the virtual disk; the
format code hardcodes the last block as 127. -/
def N_BLOCKS : Nat := 128

/-- Modelled from the spec: number of inode-table blocks, which follow the
master block (blocks 1..4). -/
def N_INODE_BLOCKS : Nat := 4

/-- Modelled from the spec: block 0 is the master block. -/
def MASTER_BLOCK_REFERENCE : Nat := 0

/-- Modelled from the spec: the reserved block of the root directory, the one
before the first free block 6. -/
def ROOT_DIRECTORY_BLOCK : Nat := 5

/-- Modelled from the spec: the root directory is inode 0. -/
def ROOT_DIRECTORY_INODE : Nat := 0

/-- Modelled from the spec: the dedicated sentinel for "no block", a value that
is no reference of a block of the disk; here the all-ones 16-bit value. -/
def UNALLOCATED_BLOCK : Nat := 65535

/-- Modelled from the spec: the dedicated sentinel for "no inode" (a free
directory slot), a value that is no reference of an inode (the root is
inode 0); here the all-ones 16-bit value. -/
def UNALLOCATED_INODE : Nat := 65535

/-- Modelled from the spec: the fixed number of inode records in one
inode-table block; the header that sets the value is missing, 31 stands for
it. -/
def N_INODES_PER_BLOCK : Nat := 31

/-- Modelled from the spec: number of inodes, one bitmap bit each. -/
def N_INODES : Nat := N_INODES_PER_BLOCK * N_INODE_BLOCKS

/-- Modelled from the spec: the fixed capacity of a directory block; the
header that sets the value is missing, 15 stands for it. -/
def N_DIRECTORY_ENTRIES_PER_BLOCK : Nat := 15

/-- Inode types; the enum values are 0, 1, 2 in this order (see
`INODE_TYPE_NAME`). -/
inductive INODE_TYPE where
  | UNUSED_TYPE
  | DIRECTORY_TYPE
  | FILE_TYPE
deriving DecidableEq, Repr

open INODE_TYPE

/-- Inode record: type, reference count, content block, size. -/
structure INODE where
  type : INODE_TYPE
  n_references : Nat
  content : Nat
  size : Nat
deriving DecidableEq, Repr

/-- Directory entry: a name and an inode reference; the slot is free when the
reference is `UNALLOCATED_INODE`. -/
structure DIRECTORY_ENTRY where
  name : String
  inode_reference : Nat
deriving DecidableEq, Repr

/-- Master block: inode allocation bitmap (bytes), head and tail of the
free-block list. -/
structure MASTER_BLOCK where
  inode_allocated_flag : List Nat
  unallocated_front : Nat
  unallocated_end : Nat
deriving DecidableEq, Repr

/-- The union `content` of a block, tagged with the member that was stored;
`zero` is the content after `memset(&block, 0, BLOCK_SIZE)`. -/
inductive CONTENT where
  | zero
  | master (m : MASTER_BLOCK)
  | inodes (inode : List INODE)
  | directory (entry : List DIRECTORY_ENTRY)
  | data (bytes : List Nat)
deriving DecidableEq, Repr

/-- Disk block. -/
structure BLOCK where
  next_block : Nat
  content : CONTENT
deriving DecidableEq, Repr

/-- The inode all of whose bytes are zero: enum value 0 is `UNUSED_TYPE`. -/
def zero_inode : INODE := ⟨UNUSED_TYPE, 0, 0, 0⟩

/-- The directory entry all of whose bytes are zero: the empty name and
inode reference 0. -/
def zero_entry : DIRECTORY_ENTRY := ⟨"", 0⟩

/-- The master block all of whose bytes are zero. -/
def zero_master : MASTER_BLOCK := ⟨List.replicate (N_INODES / 8) 0, 0, 0⟩

/-- View `content.inodes.inode` of a block. -/
def CONTENT.asInodes : CONTENT → Option (List INODE)
  | .zero => some (List.replicate N_INODES_PER_BLOCK zero_inode)
  | .inodes t => some t
  | _ => none

/-- View `content.directory.entry` of a block. -/
def CONTENT.asDirectory : CONTENT → Option (List DIRECTORY_ENTRY)
  | .zero => some (List.replicate N_DIRECTORY_ENTRIES_PER_BLOCK zero_entry)
  | .directory d => some d
  | _ => none

/-- View `content.master` of a block. -/
def CONTENT.asMaster : CONTENT → Option MASTER_BLOCK
  | .zero => some zero_master
  | .master m => some m
  | _ => none

/-! ## State: virtual disk and standard error -/

/-- One argument of a `fprintf` call. -/
inductive ARG where
  | str (s : String)
  | int (i : Int)
deriving DecidableEq, Repr

/-- One `fprintf(stderr, format, args...)` call. -/
structure PRINTED where
  format : String
  args : List ARG
deriving DecidableEq, Repr

/-- The state the library works on: the blocks of the virtual disk, the status
that `virtual_disk_attach` returns, which of the upcoming write and read calls
report an error (indexed by the number of calls made before), the global
`debug`, and what was printed on standard error. -/
structure Store where
  block : Nat → BLOCK
  attach_status : Int
  write_fails : Nat → Bool
  read_fails : Nat → Bool
  n_writes : Nat
  n_reads : Nat
  debug : Int
  stderr : List PRINTED

/-- Call `fprintf(stderr, ...)`. -/
def fprintf (s : Store) (p : PRINTED) : Store :=
  { s with stderr := s.stderr ++ [p] }

/-- Modelled from the spec: `write_block(ref, data) -> Result<(), Error>` of
the backing store (`virtual_disk.c` is not part of the sources).  The call
reports an error (-1) when the store says so or the reference is outside the
disk, and leaves the block as it was; otherwise it stores the block and
returns 0. -/
def virtual_disk_write_block (s : Store) (ref : Nat) (b : BLOCK) : Int × Store :=
  if s.write_fails s.n_writes = true ∨ N_BLOCKS ≤ ref then
    (-1, { s with n_writes := s.n_writes + 1 })
  else
    (0, { s with block := fun r => if r = ref then b else s.block r,
                 n_writes := s.n_writes + 1 })

/-- Modelled from the spec: `read_block(ref) -> Result<Block, Error>` of the
backing store.  On an error (-1) the caller's buffer `buf` keeps its
content; otherwise the buffer receives the stored block and the call
returns 0. -/
def virtual_disk_read_block (s : Store) (ref : Nat) (buf : BLOCK) :
    Int × BLOCK × Store :=
  if s.read_fails s.n_reads = true ∨ N_BLOCKS ≤ ref then
    (-1, buf, { s with n_reads := s.n_reads + 1 })
  else
    (0, s.block ref, { s with n_reads := s.n_reads + 1 })

/-! ## Helpers of `oufs_lib_support.c` (not part of the sources) -/

/-- Modelled from the spec: `oufs_init_directory_structures(inode, block,
self_block, self_inode, parent_inode)` is missing from the sources.  It
initialises, in memory, the inode as DIRECTORY with `content` pointing at the
block and `size` 2, and the block with the entries `.` (self) and `..`
(parent), every other slot free. -/
def oufs_init_directory_structures (self_block_reference : Nat)
    (self_inode_reference parent_inode_reference : Nat) : INODE × BLOCK :=
  (⟨DIRECTORY_TYPE, 1, self_block_reference, 2⟩,
   ⟨UNALLOCATED_BLOCK,
    .directory (⟨".", self_inode_reference⟩ :: ⟨"..", parent_inode_reference⟩ ::
      List.replicate (N_DIRECTORY_ENTRIES_PER_BLOCK - 2) ⟨"", UNALLOCATED_INODE⟩)⟩)

/-- Modelled from the spec: `oufs_read_inode_by_reference(i, inode)` is
missing from the sources.  It fails when the reference is out of range,
computes the inode-table block and the offset in it, reads that block and
extracts the record.  `inode0` is the prior content of the caller's buffer,
kept on failure. -/
def oufs_read_inode_by_reference (s : Store) (i : Nat) (inode0 : INODE) :
    Option (Int × INODE × Store) :=
  if N_INODES ≤ i then some (-1, inode0, s)
  else
    let block := i / N_INODES_PER_BLOCK + 1
    let element := i % N_INODES_PER_BLOCK
    let r := virtual_disk_read_block s block ⟨0, .zero⟩
    if r.1 ≠ 0 then some (-1, inode0, r.2.2)
    else
      match r.2.1.content.asInodes with
      | none => none
      | some t => some (0, t.getD element zero_inode, r.2.2)

/-- Modelled from the spec: `oufs_write_inode_by_reference(i, inode)` is
missing from the sources.  It reads the owning inode-table block, overwrites
the one slot and writes the block back. -/
def oufs_write_inode_by_reference (s : Store) (i : Nat) (inode : INODE) :
    Option (Int × Store) :=
  if N_INODES ≤ i then some (-1, s)
  else
    let block := i / N_INODES_PER_BLOCK + 1
    let element := i % N_INODES_PER_BLOCK
    let r := virtual_disk_read_block s block ⟨0, .zero⟩
    if r.1 ≠ 0 then some (-1, r.2.2)
    else
      match r.2.1.content.asInodes with
      | none => none
      | some t =>
        let w := virtual_disk_write_block r.2.2 block
          { r.2.1 with content := .inodes (t.set element inode) }
        if w.1 ≠ 0 then some (-1, w.2) else some (0, w.2)

/-- Outcome of `oufs_find_file(cwd, path, &parent, &child, local_name)`, which
is missing from the sources: the returned status and the three outputs. -/
structure FIND where
  ret : Int
  parent : Nat
  child : Nat
  local_name : String
deriving DecidableEq, Repr

/-! ## `oufs_format_disk` -/

/-- The zeroing pass `for(i = 0; i < N_BLOCKS; ++i)`, with `n` iterations left
at index `i`; the flag is false when a write failed (the function then
returns -2). -/
def format_zero_blocks (block : BLOCK) : Nat → Nat → Store → Bool × Store
  | 0, _, s => (true, s)
  | n + 1, i, s =>
    let r := virtual_disk_write_block s i block
    if r.1 < 0 then (false, r.2) else format_zero_blocks block n (i + 1) r.2

/-- The loop `for(cur = 6, next = 7; cur < N_BLOCKS - 1; ++next, ++cur)` that
links the free blocks, with `n` iterations left; a failed write is reported
on standard error and the loop goes on. -/
def format_link_blocks : Nat → Nat → Nat → BLOCK → Store → BLOCK × Store
  | 0, _, _, link, s => (link, s)
  | n + 1, cur, next, link, s =>
    let link := { link with next_block := next }
    let r := virtual_disk_write_block s cur link
    let s := if r.1 = -1 then
        fprintf r.2 ⟨"write to block error: oufs_lib -> oufs_format_disk\n", []⟩
      else r.2
    format_link_blocks n (cur + 1) (next + 1) link s

/-- The loop `for(i = 1; i <= N_INODE_BLOCKS; ++i)` that writes the inode
table, with `n` iterations left; a failed write is reported on standard error
and the loop goes on. -/
def format_inode_blocks (inodeBlock : BLOCK) : Nat → Nat → Store → Store
  | 0, _, s => s
  | n + 1, i, s =>
    let r := virtual_disk_write_block s i inodeBlock
    let s := if r.1 = -1 then
        fprintf r.2 ⟨"Writing inode block error oufs_lib -> oufs_format_disk()\n", []⟩
      else r.2
    format_inode_blocks inodeBlock n (i + 1) s

/-- The function `oufs_format_disk`.  `link0` is the content of the local
`link` before the code assigns its `next_block` (the local is not
initialised).  The result is the returned status and the state;
`virtual_disk_detach` does not change the state. -/
def oufs_format_disk (s : Store) (link0 : BLOCK) : Option (Int × Store) :=
  if s.attach_status ≠ 0 then some (-1, s)
  else
    -- memset(&block, 0, BLOCK_SIZE)
    let block : BLOCK := ⟨0, .zero⟩
    let z := format_zero_blocks block N_BLOCKS 0 s
    if z.1 = false then some (-2, z.2)
    else
      let s := z.2
      let front : Nat := 6
      let end_ : Nat := 127
      let block : BLOCK :=
        ⟨UNALLOCATED_BLOCK,
         .master { inode_allocated_flag := zero_master.inode_allocated_flag.set 0 0x80,
                   unallocated_front := front,
                   unallocated_end := end_ }⟩
      let r := virtual_disk_write_block s MASTER_BLOCK_REFERENCE block
      let s := if r.1 = -1 then
          fprintf r.2 ⟨"writing master block to disk error: oufs_lib -> oufs_format_disk\n", []⟩
        else r.2
      let l := format_link_blocks (N_BLOCKS - 1 - 6) 6 7 link0 s
      let link : BLOCK := { l.1 with next_block := UNALLOCATED_BLOCK }
      let r := virtual_disk_write_block l.2 (N_BLOCKS - 1) link
      let s := if r.1 = -1 then fprintf r.2 ⟨"write to block error\n", []⟩ else r.2
      let inode : INODE := ⟨UNUSED_TYPE, 0, UNALLOCATED_BLOCK, 0⟩
      let inodeBlock : BLOCK :=
        ⟨UNALLOCATED_BLOCK, .inodes (List.replicate N_INODES_PER_BLOCK inode)⟩
      let s := format_inode_blocks inodeBlock N_INODE_BLOCKS 1 s
      -- the root block is initialised in memory only: `block` is not written
      let root := oufs_init_directory_structures ROOT_DIRECTORY_BLOCK
        ROOT_DIRECTORY_INODE ROOT_DIRECTORY_INODE
      match oufs_write_inode_by_reference s ROOT_DIRECTORY_INODE root.1 with
      | none => none
      | some w =>
        if w.1 ≠ 0 then some (-3, w.2)
        else
          let s := fprintf w.2 ⟨"Number of inodes, %d\n", [.int N_INODES]⟩
          some (0, s)

/-! ## `inode_compare_to` -/

/-- The C library `strcmp` on the characters of two strings: the difference
of the first two characters that differ, the end of a string counting as the
terminating NUL. -/
def strcmp_chars : List Char → List Char → Int
  | [], [] => 0
  | [], b :: _ => 0 - (b.toNat : Int)
  | a :: _, [] => (a.toNat : Int) - 0
  | a :: as, b :: bs =>
    if a.toNat ≠ b.toNat then (a.toNat : Int) - (b.toNat : Int)
    else if a.toNat = 0 then 0
    else strcmp_chars as bs

/-- The C library `strcmp`. -/
def strcmp (s1 s2 : String) : Int := strcmp_chars s1.toList s2.toList

/-- The function `inode_compare_to`, the `qsort` comparator on directory
entries. -/
def inode_compare_to (e1 e2 : DIRECTORY_ENTRY) : Int :=
  if e1.inode_reference = UNALLOCATED_INODE ∧ e2.inode_reference ≠ UNALLOCATED_INODE then -1
  else if e1.inode_reference ≠ UNALLOCATED_INODE ∧ e2.inode_reference = UNALLOCATED_INODE then 1
  else if strcmp e1.name e2.name = 0 then 0
  else if strcmp e1.name e2.name < 0 then -1
  else 1

/-! ## `oufs_list`, `oufs_mkdir`, `oufs_rmdir` -/

/-- The table `INODE_TYPE_NAME`. -/
def INODE_TYPE_NAME : INODE_TYPE → String
  | UNUSED_TYPE => "UNUSED"
  | DIRECTORY_TYPE => "DIRECTORY"
  | FILE_TYPE => "FILE"

/-- The loop of `oufs_list` over the slots of the directory block: the names
of the entries whose inode reference is not `UNALLOCATED_INODE`, in slot
order. -/
def list_collect_names : List DIRECTORY_ENTRY → List String
  | [] => []
  | e :: es =>
    if e.inode_reference ≠ UNALLOCATED_INODE then e.name :: list_collect_names es
    else list_collect_names es

/-- The loop of `oufs_list` that prints the collected names, each with the
format `"%s/\n"`. -/
def list_print_names : List String → Store → Store
  | [], s => s
  | n :: ns, s => list_print_names ns (fprintf s ⟨"%s/\n", [.str n]⟩)

/-- The function `oufs_list`, given the outcome `f` of `oufs_find_file` and
the state `s` in which that call returned.  `node0` and `block0` are the
contents of the locals `node` and `block` before the reads (they are not
initialised and a failed read leaves them as they are).  The result is
undefined (`none`) when the code writes past the end of
`names[inode.size]`. -/
def oufs_list (s : Store) (f : FIND) (node0 : INODE) (block0 : BLOCK) : Option (Int × Store) :=
  let ret := f.ret
  if ret = 0 ∧ f.child ≠ UNALLOCATED_INODE then
    match oufs_read_inode_by_reference s f.child node0 with
    | none => none
    | some r1 =>
      if r1.1 ≠ 0 then some (-1, r1.2.2)
      else
        let inode := r1.2.1
        let s := if r1.2.2.debug ≠ 0 then
            fprintf r1.2.2 ⟨"\tDEBUG: Child found (type=%s).\n", [.str (INODE_TYPE_NAME inode.type)]⟩
          else r1.2.2
        match oufs_read_inode_by_reference s f.child node0 with
        | none => none
        | some r2 =>
          let s := if r2.1 ≠ 0 then fprintf r2.2.2 ⟨"Read inode Error\n", []⟩ else r2.2.2
          let node := r2.2.1
          let r3 := virtual_disk_read_block s node.content block0
          let s := if r3.1 ≠ 0 then fprintf r3.2.2 ⟨"Read Error\n", []⟩ else r3.2.2
          let block := r3.2.1
          let s := fprintf s ⟨"Num directories %d\n", [.int inode.size]⟩
          match block.content.asDirectory with
          | none => none
          | some directory =>
            let names := list_collect_names (directory.take N_DIRECTORY_ENTRIES_PER_BLOCK)
            if inode.size < names.length then none
            else some (ret, list_print_names names s)
  else
    let s := fprintf s ⟨"Not found\n", []⟩
    let s := if s.debug ≠ 0 then fprintf s ⟨"\tDEBUG: (%d)\n", [.int ret]⟩ else s
    some (ret, s)

/-- The function `oufs_mkdir`, given the outcome `f` of `oufs_find_file` and
the state `s` in which that call returned. -/
def oufs_mkdir (s : Store) (f : FIND) : Int × Store :=
  let ret := f.ret
  if ret < -1 then
    let s := if s.debug ≠ 0 then fprintf s ⟨"oufs_mkdir(): ret = %d\n", [.int ret]⟩ else s
    (-1, s)
  else
    -- TODO: complete implementation
    (-1, s)

/-- The function `oufs_rmdir`, given the outcome `f` of `oufs_find_file` and
the state `s` in which that call returned. -/
def oufs_rmdir (s : Store) (f : FIND) : Int × Store :=
  if f.ret < -1 then (-4, s)
  else
    -- TODO: complet implementation
    (0, s)

/-! ## States and notions used to state the properties -/

/-- The block that `oufs_format_disk` leaves at reference `r` when every call
on the disk succeeds; `old` is the disk before. -/
def formatted_block (link0 : BLOCK) (old : Nat → BLOCK) (r : Nat) : BLOCK :=
  if r = 0 then
    ⟨UNALLOCATED_BLOCK,
     .master { inode_allocated_flag := zero_master.inode_allocated_flag.set 0 0x80,
               unallocated_front := 6, unallocated_end := 127 }⟩
  else if r = 1 then
    ⟨UNALLOCATED_BLOCK,
     .inodes ((List.replicate N_INODES_PER_BLOCK ⟨UNUSED_TYPE, 0, UNALLOCATED_BLOCK, 0⟩).set 0
       ⟨DIRECTORY_TYPE, 1, ROOT_DIRECTORY_BLOCK, 2⟩)⟩
  else if r ≤ 4 then
    ⟨UNALLOCATED_BLOCK,
     .inodes (List.replicate N_INODES_PER_BLOCK ⟨UNUSED_TYPE, 0, UNALLOCATED_BLOCK, 0⟩)⟩
  else if r = 5 then ⟨0, .zero⟩
  else if r < 127 then { link0 with next_block := r + 1 }
  else if r = 127 then { link0 with next_block := UNALLOCATED_BLOCK }
  else old r

/-- Follow `next_block` from block `r` until the sentinel `UNALLOCATED_BLOCK`,
for at most `fuel` blocks: the blocks visited, in order. -/
def free_list_walk (block : Nat → BLOCK) : Nat → Nat → List Nat
  | 0, _ => []
  | fuel + 1, r =>
    if r = UNALLOCATED_BLOCK then [] else r :: free_list_walk block fuel (block r).next_block

/-- A disk that was never written, attached without error, on which the
write calls listed by `fails` report an error and every read succeeds. -/
def raw_store (fails : Nat → Bool) : Store :=
  { block := fun _ => ⟨0, .data []⟩,
    attach_status := 0,
    write_fails := fails,
    read_fails := fun _ => false,
    n_writes := 0,
    n_reads := 0,
    debug := 1,
    stderr := [] }

/-- A well-formed file system: the root directory holds the directories
`zeta` (inode 1, which holds the directory `b`, inode 4) and `mid` (inode 3)
and the empty file `alpha` (inode 2), in the slots 2, 3, 4 in the order
`zeta`, `alpha`, `mid`; the blocks 9..127 are the free list. -/
def sample_store : Store :=
  { block := fun r =>
      if r = 0 then
        ⟨UNALLOCATED_BLOCK,
         .master { inode_allocated_flag := 0xF8 :: List.replicate 14 0,
                   unallocated_front := 9, unallocated_end := 127 }⟩
      else if r = 1 then
        ⟨UNALLOCATED_BLOCK,
         .inodes ([⟨DIRECTORY_TYPE, 1, 5, 5⟩, ⟨DIRECTORY_TYPE, 1, 6, 3⟩,
                   ⟨FILE_TYPE, 1, UNALLOCATED_BLOCK, 0⟩, ⟨DIRECTORY_TYPE, 1, 7, 2⟩,
                   ⟨DIRECTORY_TYPE, 1, 8, 2⟩] ++
                  List.replicate 26 ⟨UNUSED_TYPE, 0, UNALLOCATED_BLOCK, 0⟩)⟩
      else if r ≤ 4 then
        ⟨UNALLOCATED_BLOCK,
         .inodes (List.replicate 31 ⟨UNUSED_TYPE, 0, UNALLOCATED_BLOCK, 0⟩)⟩
      else if r = 5 then
        ⟨UNALLOCATED_BLOCK,
         .directory ([⟨".", 0⟩, ⟨"..", 0⟩, ⟨"zeta", 1⟩, ⟨"alpha", 2⟩, ⟨"mid", 3⟩] ++
                     List.replicate 10 ⟨"", UNALLOCATED_INODE⟩)⟩
      else if r = 6 then
        ⟨UNALLOCATED_BLOCK,
         .directory ([⟨".", 1⟩, ⟨"..", 0⟩, ⟨"b", 4⟩] ++
                     List.replicate 12 ⟨"", UNALLOCATED_INODE⟩)⟩
      else if r = 7 then
        ⟨UNALLOCATED_BLOCK,
         .directory ([⟨".", 3⟩, ⟨"..", 0⟩] ++ List.replicate 13 ⟨"", UNALLOCATED_INODE⟩)⟩
      else if r = 8 then
        ⟨UNALLOCATED_BLOCK,
         .directory ([⟨".", 4⟩, ⟨"..", 1⟩] ++ List.replicate 13 ⟨"", UNALLOCATED_INODE⟩)⟩
      else if r < 127 then ⟨r + 1, .zero⟩
      else ⟨UNALLOCATED_BLOCK, .zero⟩,
    attach_status := 0,
    write_fails := fun _ => false,
    read_fails := fun _ => false,
    n_writes := 0,
    n_reads := 0,
    debug := 1,
    stderr := [] }

/-- The state `s'` comes from `s` by `k` write calls (whatever their outcome)
and prints, none of which touched a block `r` with `keep r`. -/
def written (k : Nat) (keep : Nat → Prop) (s s' : Store) : Prop :=
  s'.write_fails = s.write_fails ∧ s'.read_fails = s.read_fails ∧
  s'.n_reads = s.n_reads ∧ s'.n_writes = s.n_writes + k ∧
  ∀ r, keep r → s'.block r = s.block r

/-! ## Lemmas on the loops of `oufs_format_disk` -/

theorem write_block_ok (s : Store) (ref : Nat) (b : BLOCK)
    (hw : s.write_fails s.n_writes = false) (hr : ref < N_BLOCKS) :
    virtual_disk_write_block s ref b =
      (0, { s with block := fun r => if r = ref then b else s.block r,
                   n_writes := s.n_writes + 1 }) := by
  unfold virtual_disk_write_block
  have : ¬ (s.write_fails s.n_writes = true ∨ N_BLOCKS ≤ ref) := by
    rw [hw]; simp; exact hr
  rw [if_neg this]

theorem format_zero_blocks_ok (blk : BLOCK) :
    ∀ (n : Nat) (i : Nat) (s : Store),
      (∀ k, k < n → s.write_fails (s.n_writes + k) = false) → i + n ≤ N_BLOCKS →
      format_zero_blocks blk n i s =
        (true, { s with block := fun r => if i ≤ r ∧ r < i + n then blk else s.block r,
                        n_writes := s.n_writes + n })
  | 0, i, s, _, _ => by
    simp only [format_zero_blocks]
    congr 1
    cases s
    simp only [Store.mk.injEq, and_true, true_and, Nat.add_zero]
    funext r
    have : ¬ (i ≤ r ∧ r < i) := by omega
    rw [if_neg this]
  | n + 1, i, s, hw, hi => by
    simp only [format_zero_blocks]
    rw [write_block_ok s i blk (hw 0 (by omega)) (by omega)]
    simp only [lt_self_iff_false, if_false]
    have ih := format_zero_blocks_ok blk n (i + 1)
      { s with block := fun r => if r = i then blk else s.block r, n_writes := s.n_writes + 1 }
      (fun k hk => by
        show s.write_fails (s.n_writes + 1 + k) = false
        rw [Nat.add_assoc, Nat.add_comm 1 k]
        exact hw (k + 1) (by omega))
      (by omega)
    rw [ih]
    congr 1
    simp only [Store.mk.injEq, and_true, true_and]
    constructor
    · funext r
      by_cases h1 : r = i
      · subst h1; simp
      · by_cases h2 : i ≤ r ∧ r < i + (n + 1)
        · have : i + 1 ≤ r ∧ r < i + 1 + n := by omega
          simp [h2, this]
        · have : ¬ (i + 1 ≤ r ∧ r < i + 1 + n) := by omega
          simp [h2, this, h1]
    · omega

theorem format_link_blocks_ok :
    ∀ (n : Nat) (cur next : Nat) (link : BLOCK) (s : Store),
      (∀ k, s.write_fails k = false) → cur + n ≤ N_BLOCKS →
      format_link_blocks n cur next link s =
        ({ link with next_block := if n = 0 then link.next_block else next + n - 1 },
         { s with block := fun r => if cur ≤ r ∧ r < cur + n then
                                      { link with next_block := next + (r - cur) }
                                    else s.block r,
                  n_writes := s.n_writes + n })
  | 0, cur, next, link, s, _, _ => by
    simp only [format_link_blocks]
    congr 1
    cases s
    simp only [Store.mk.injEq, and_true, true_and, Nat.add_zero]
    funext r
    have : ¬ (cur ≤ r ∧ r < cur) := by omega
    rw [if_neg this]
  | n + 1, cur, next, link, s, hw, hi => by
    simp only [format_link_blocks]
    rw [write_block_ok s cur _ (hw _) (by omega)]
    have h01 : ¬ ((0 : Int) = -1) := by decide
    simp only [h01, if_false]
    have ih := format_link_blocks_ok n (cur + 1) (next + 1) { link with next_block := next }
      { s with block := fun r => if r = cur then { link with next_block := next } else s.block r,
               n_writes := s.n_writes + 1 }
      hw (by omega)
    rw [ih]
    congr 1
    · by_cases hn : n = 0
      · subst hn; simp
      · simp only [hn, if_false, Nat.add_one_ne_zero]
        congr 1
        omega
    · simp only [Store.mk.injEq, and_true, true_and]
      constructor
      · funext r
        by_cases h1 : r = cur
        · subst h1; simp
        · by_cases h2 : cur ≤ r ∧ r < cur + (n + 1)
          · have h3 : cur + 1 ≤ r ∧ r < cur + 1 + n := by omega
            have h4 : next + 1 + (r - (cur + 1)) = next + (r - cur) := by omega
            simp [h2, h3, h4]
          · have : ¬ (cur + 1 ≤ r ∧ r < cur + 1 + n) := by omega
            simp [h2, this, h1]
      · omega

theorem format_inode_blocks_ok (blk : BLOCK) :
    ∀ (n : Nat) (i : Nat) (s : Store),
      (∀ k, s.write_fails k = false) → i + n ≤ N_BLOCKS →
      format_inode_blocks blk n i s =
        { s with block := fun r => if i ≤ r ∧ r < i + n then blk else s.block r,
                 n_writes := s.n_writes + n }
  | 0, i, s, _, _ => by
    simp only [format_inode_blocks]
    cases s
    simp only [Store.mk.injEq, and_true, true_and, Nat.add_zero]
    funext r
    have : ¬ (i ≤ r ∧ r < i) := by omega
    rw [if_neg this]
  | n + 1, i, s, hw, hi => by
    simp only [format_inode_blocks]
    rw [write_block_ok s i blk (hw _) (by omega)]
    have h01 : ¬ ((0 : Int) = -1) := by decide
    simp only [h01, if_false]
    have ih := format_inode_blocks_ok blk n (i + 1)
      { s with block := fun r => if r = i then blk else s.block r, n_writes := s.n_writes + 1 }
      hw (by omega)
    rw [ih]
    simp only [Store.mk.injEq, and_true, true_and]
    constructor
    · funext r
      by_cases h1 : r = i
      · subst h1; simp
      · by_cases h2 : i ≤ r ∧ r < i + (n + 1)
        · have : i + 1 ≤ r ∧ r < i + 1 + n := by omega
          simp [h2, this]
        · have : ¬ (i + 1 ≤ r ∧ r < i + 1 + n) := by omega
          simp [h2, this, h1]
    · omega


theorem read_block_ok (s : Store) (ref : Nat) (buf : BLOCK)
    (hf : s.read_fails s.n_reads = false) (hr : ref < N_BLOCKS) :
    virtual_disk_read_block s ref buf =
      (0, s.block ref, { s with n_reads := s.n_reads + 1 }) := by
  unfold virtual_disk_read_block
  have : ¬ (s.read_fails s.n_reads = true ∨ N_BLOCKS ≤ ref) := by
    rw [hf]; simp; exact hr
  rw [if_neg this]

theorem write_inode_ok (s : Store) (i : Nat) (inode : INODE) (t : List INODE)
    (hi : i < N_INODES) (hf : s.read_fails s.n_reads = false)
    (hw : s.write_fails s.n_writes = false)
    (hv : (s.block (i / N_INODES_PER_BLOCK + 1)).content.asInodes = some t) :
    oufs_write_inode_by_reference s i inode =
      some (0, { s with
        block := fun r => if r = i / N_INODES_PER_BLOCK + 1 then
            { s.block (i / N_INODES_PER_BLOCK + 1) with
              content := .inodes (t.set (i % N_INODES_PER_BLOCK) inode) }
          else s.block r,
        n_writes := s.n_writes + 1,
        n_reads := s.n_reads + 1 }) := by
  have hb : i / N_INODES_PER_BLOCK + 1 < N_BLOCKS := by
    simp only [N_INODES, N_INODES_PER_BLOCK, N_INODE_BLOCKS, N_BLOCKS] at *
    omega
  unfold oufs_write_inode_by_reference
  rw [if_neg (by omega)]
  dsimp only
  rw [read_block_ok s _ _ hf hb]
  dsimp only
  rw [if_neg (by simp), hv]
  dsimp only
  rw [write_block_ok _ _ _ ?_ hb]
  · simp
  · exact hw

theorem oufs_format_disk_ok (s : Store) (link0 : BLOCK) (ha : s.attach_status = 0)
    (hw : ∀ k, s.write_fails k = false) (hr : s.read_fails s.n_reads = false) :
    oufs_format_disk s link0 =
      some (0, { s with block := formatted_block link0 s.block,
                        n_writes := s.n_writes + 256,
                        n_reads := s.n_reads + 1,
                        stderr := s.stderr ++ [⟨"Number of inodes, %d\n", [.int N_INODES]⟩] }) := by
  have h01 : ¬ ((0 : Int) = -1) := by decide
  unfold oufs_format_disk
  rw [if_neg (by simp [ha])]
  dsimp only
  rw [format_zero_blocks_ok ⟨0, .zero⟩ N_BLOCKS 0 s (fun k _ => hw _) (by simp)]
  dsimp only
  rw [if_neg (by simp)]
  rw [write_block_ok _ MASTER_BLOCK_REFERENCE _ ?_ (by decide)]
  rotate_left
  · exact hw _
  dsimp only
  rw [if_neg h01]
  rw [format_link_blocks_ok _ 6 7 link0 _ ?_ (by decide)]
  rotate_left
  · exact hw
  dsimp only
  rw [write_block_ok _ (N_BLOCKS - 1) _ ?_ (by decide)]
  rotate_left
  · exact hw _
  dsimp only
  rw [if_neg h01]
  rw [format_inode_blocks_ok _ N_INODE_BLOCKS 1 _ ?_ (by decide)]
  rotate_left
  · exact hw
  dsimp only
  rw [write_inode_ok _ ROOT_DIRECTORY_INODE _
    (List.replicate N_INODES_PER_BLOCK ⟨UNUSED_TYPE, 0, UNALLOCATED_BLOCK, 0⟩) (by decide) ?_ ?_ ?_]
  rotate_left
  · exact hr
  · exact hw _
  · rfl
  dsimp only
  rw [if_neg (by simp)]
  unfold fprintf
  dsimp only
  congr 2
  simp only [Store.mk.injEq, and_true, true_and]
  constructor
  · funext r
    unfold formatted_block
    simp only [N_BLOCKS, N_INODE_BLOCKS, N_INODES_PER_BLOCK, ROOT_DIRECTORY_INODE,
      MASTER_BLOCK_REFERENCE, ROOT_DIRECTORY_BLOCK, oufs_init_directory_structures]
    split_ifs <;> first | rfl | omega | (congr 1; omega)
  · simp only [N_BLOCKS, N_INODE_BLOCKS]

/-! ## `inode_compare_to` -/

theorem strcmp_chars_antisymm : ∀ a b : List Char, strcmp_chars b a = - strcmp_chars a b
  | [], [] => by simp [strcmp_chars]
  | [], _ :: _ => by simp [strcmp_chars]
  | _ :: _, [] => by simp [strcmp_chars]
  | a :: as, b :: bs => by
    have ih := strcmp_chars_antisymm as bs
    simp only [strcmp_chars]
    split_ifs <;> omega

theorem strcmp_chars_trans : ∀ a b c : List Char,
    strcmp_chars a b ≤ 0 → strcmp_chars b c ≤ 0 → strcmp_chars a c ≤ 0
  | [], [], _ => by intro _ h; exact h
  | [], _ :: _, [] => by simp [strcmp_chars]
  | [], _ :: _, _ :: _ => by
    simp only [strcmp_chars]
    split_ifs <;> intros <;> omega
  | _ :: _, [], [] => by simp [strcmp_chars]
  | _ :: _, [], _ :: _ => by
    simp only [strcmp_chars]
    intros; split_ifs <;> omega
  | _ :: _, _ :: _, [] => by
    simp only [strcmp_chars]
    split_ifs <;> intros <;> omega
  | a :: as, b :: bs, c :: cs => by
    have ih := strcmp_chars_trans as bs cs
    simp only [strcmp_chars]
    split_ifs <;> intros <;> omega

theorem strcmp_antisymm (a b : String) : strcmp b a = - strcmp a b :=
  strcmp_chars_antisymm a.toList b.toList

theorem strcmp_trans (a b c : String) :
    strcmp a b ≤ 0 → strcmp b c ≤ 0 → strcmp a c ≤ 0 :=
  strcmp_chars_trans a.toList b.toList c.toList

theorem inode_compare_to_le_zero (a b : DIRECTORY_ENTRY) :
    inode_compare_to a b ≤ 0 ↔
      (a.inode_reference = UNALLOCATED_INODE ∧ b.inode_reference ≠ UNALLOCATED_INODE) ∨
      ((a.inode_reference = UNALLOCATED_INODE ↔ b.inode_reference = UNALLOCATED_INODE) ∧
        strcmp a.name b.name ≤ 0) := by
  unfold inode_compare_to
  by_cases ha : a.inode_reference = UNALLOCATED_INODE <;>
    by_cases hb : b.inode_reference = UNALLOCATED_INODE <;>
    simp only [ha, hb, ne_eq, not_true_eq_false, not_false_eq_true, and_self, and_true,
      and_false, true_and, false_and, if_true, if_false, false_or, or_false, true_or, iff_true,
      iff_false, true_iff, false_iff] <;>
    first
    | (split_ifs <;> omega)
    | decide

/-- C9: `inode_compare_to` orders the directory entries with the unallocated
ones first and then by name: it returns -1 when `a` is unallocated and `b` is
allocated, 1 in the reverse case, and otherwise the sign of
`strcmp(a.name, b.name)`; it is antisymmetric
(`compare(a, b) = -compare(b, a)`) and transitive (`compare(a, b) ≤ 0` and
`compare(b, c) ≤ 0` imply `compare(a, c) ≤ 0`), hence reflexive and total. -/
theorem inode_compare_to_total_order (a b c : DIRECTORY_ENTRY) :
    (a.inode_reference = UNALLOCATED_INODE → b.inode_reference ≠ UNALLOCATED_INODE →
      inode_compare_to a b = -1) ∧
    (a.inode_reference ≠ UNALLOCATED_INODE → b.inode_reference = UNALLOCATED_INODE →
      inode_compare_to a b = 1) ∧
    ((a.inode_reference = UNALLOCATED_INODE ↔ b.inode_reference = UNALLOCATED_INODE) →
      inode_compare_to a b = Int.sign (strcmp a.name b.name)) ∧
    inode_compare_to a b = - inode_compare_to b a ∧
    (inode_compare_to a b ≤ 0 → inode_compare_to b c ≤ 0 → inode_compare_to a c ≤ 0) ∧
    inode_compare_to a a = 0 ∧
    (inode_compare_to a b ≤ 0 ∨ inode_compare_to b a ≤ 0) := by
  have anti : ∀ x y : DIRECTORY_ENTRY, inode_compare_to x y = - inode_compare_to y x := by
    intro x y
    have hs := strcmp_antisymm x.name y.name
    unfold inode_compare_to
    by_cases ha : x.inode_reference = UNALLOCATED_INODE <;>
      by_cases hb : y.inode_reference = UNALLOCATED_INODE <;>
      simp only [ha, hb, ne_eq, not_true_eq_false, not_false_eq_true, and_self, and_true,
        and_false, true_and, false_and, if_true, if_false] <;>
      first
      | (split_ifs <;> omega)
      | decide
  refine ⟨?_, ?_, ?_, anti a b, ?_, ?_, ?_⟩
  · intro ha hb
    simp [inode_compare_to, ha, hb]
  · intro ha hb
    simp [inode_compare_to, ha, hb]
  · intro h
    unfold inode_compare_to
    by_cases ha : a.inode_reference = UNALLOCATED_INODE
    · have hb := h.mp ha
      simp only [ha, hb, ne_eq, not_true_eq_false, and_false, and_true, if_false]
      split_ifs with h1 h2
      · rw [h1]; rfl
      · exact (Int.sign_eq_neg_one_of_neg h2).symm
      · exact (Int.sign_eq_one_of_pos (by omega)).symm
    · have hb : ¬ b.inode_reference = UNALLOCATED_INODE := fun hb => ha (h.mpr hb)
      simp only [ha, hb, ne_eq, not_false_eq_true, and_false, false_and, and_true, if_false]
      split_ifs with h1 h2
      · rw [h1]; rfl
      · exact (Int.sign_eq_neg_one_of_neg h2).symm
      · exact (Int.sign_eq_one_of_pos (by omega)).symm
  · intro hab hbc
    rw [inode_compare_to_le_zero] at hab hbc ⊢
    rcases hab with ⟨ha, hb⟩ | ⟨hab, h1⟩
    · rcases hbc with ⟨hb2, _⟩ | ⟨hbc, _⟩
      · exact absurd hb2 hb
      · left
        exact ⟨ha, fun hc => hb (hbc.mpr hc)⟩
    · rcases hbc with ⟨hb, hc⟩ | ⟨hbc, h2⟩
      · left
        exact ⟨hab.mpr hb, hc⟩
      · right
        exact ⟨hab.trans hbc, strcmp_trans _ _ _ h1 h2⟩
  · have h := anti a a
    omega
  · have h := anti a b
    omega

/-- The comparator on a free slot and the entries `alpha` and `zeta`. -/
theorem inode_compare_to_total_order_witness :
    inode_compare_to ⟨"", UNALLOCATED_INODE⟩ ⟨"alpha", 2⟩ = -1 ∧
    inode_compare_to ⟨"alpha", 2⟩ ⟨"", UNALLOCATED_INODE⟩ = 1 ∧
    inode_compare_to ⟨"alpha", 2⟩ ⟨"zeta", 1⟩ = Int.sign (strcmp "alpha" "zeta") ∧
    (inode_compare_to ⟨"", UNALLOCATED_INODE⟩ ⟨"alpha", 2⟩ ≤ 0 →
      inode_compare_to ⟨"alpha", 2⟩ ⟨"zeta", 1⟩ ≤ 0 →
      inode_compare_to ⟨"", UNALLOCATED_INODE⟩ ⟨"zeta", 1⟩ ≤ 0) :=
  ⟨(inode_compare_to_total_order ⟨"", UNALLOCATED_INODE⟩ ⟨"alpha", 2⟩ ⟨"zeta", 1⟩).1 rfl
      (by decide),
   (inode_compare_to_total_order ⟨"alpha", 2⟩ ⟨"", UNALLOCATED_INODE⟩ ⟨"zeta", 1⟩).2.1
      (by decide) rfl,
   (inode_compare_to_total_order ⟨"alpha", 2⟩ ⟨"zeta", 1⟩ ⟨"zeta", 1⟩).2.2.1 (by decide),
   (inode_compare_to_total_order ⟨"", UNALLOCATED_INODE⟩ ⟨"alpha", 2⟩ ⟨"zeta", 1⟩).2.2.2.2.1⟩

/-- C10: on the entries the doc comment calls invalid, `inode_compare_to` does
the opposite of what the comment says: when `e1` is the only valid entry it
returns 1 (the comment: -1), when `e2` is the only valid one it returns -1
(the comment: 1), and for two invalid entries with the names `x` and `y` it
returns -1 (the comment: 0). -/
theorem inode_compare_to_invalid_entries :
    inode_compare_to ⟨"alpha", 2⟩ ⟨"", UNALLOCATED_INODE⟩ = 1 ∧
    inode_compare_to ⟨"", UNALLOCATED_INODE⟩ ⟨"alpha", 2⟩ = -1 ∧
    inode_compare_to ⟨"x", UNALLOCATED_INODE⟩ ⟨"y", UNALLOCATED_INODE⟩ = -1 := by
  decide

/-! ## `oufs_format_disk` -/

theorem free_list_walk_formatted (link0 : BLOCK) (old : Nat → BLOCK) :
    ∀ (k fuel r : Nat), 6 ≤ r → r + k = 127 → k < fuel →
      free_list_walk (formatted_block link0 old) fuel r = List.range' r (k + 1)
  | _, 0, _, _, _, hf => by
    omega
  | 0, fuel + 1, r, _, hk, _ => by
    have h127 : r = 127 := by omega
    subst h127
    have hb : (formatted_block link0 old 127).next_block = UNALLOCATED_BLOCK := by
      simp [formatted_block]
    simp only [free_list_walk, hb]
    rw [if_neg (by decide)]
    cases fuel with
    | zero => rfl
    | succ f => simp [free_list_walk]
  | k + 1, fuel + 1, r, h6, hk, hf => by
    have hr : r ≠ UNALLOCATED_BLOCK := by
      simp only [UNALLOCATED_BLOCK]; omega
    have hb : (formatted_block link0 old r).next_block = r + 1 := by
      unfold formatted_block
      rw [if_neg (by omega), if_neg (by omega), if_neg (by omega), if_neg (by omega),
        if_pos (by omega)]
    simp only [free_list_walk, if_neg hr, hb]
    rw [free_list_walk_formatted link0 old k fuel (r + 1) (by omega) (by omega) (by omega)]
    rfl

/-- When no call on the disk fails, the format returns 0 and leaves the free
list that C2 describes: the head is 6, the tail is 127, following
`next_block` from the head visits 6, 7, ..., 127 in this order and then
reaches the sentinel, which makes 122 = 128 - (1 + 4 + 1) free blocks. -/
theorem format_free_list_when_no_call_fails (s : Store) (link0 : BLOCK)
    (ha : s.attach_status = 0) (hw : ∀ k, s.write_fails k = false)
    (hr : s.read_fails s.n_reads = false) :
    ∃ s', oufs_format_disk s link0 = some (0, s') ∧
      (s'.block MASTER_BLOCK_REFERENCE).content.asMaster.map
        (fun m => (m.unallocated_front, m.unallocated_end)) = some (6, 127) ∧
      (∀ fuel, 122 < fuel → free_list_walk s'.block fuel 6 = List.range' 6 122) ∧
      (s'.block 127).next_block = UNALLOCATED_BLOCK ∧
      (List.range' 6 122).length = N_BLOCKS - (1 + N_INODE_BLOCKS + 1) := by
  refine ⟨_, oufs_format_disk_ok s link0 ha hw hr, ?_, ?_, ?_, ?_⟩
  · rfl
  · intro fuel hf
    exact free_list_walk_formatted link0 s.block 121 fuel 6 (by omega) (by omega) (by omega)
  · rfl
  · rfl

theorem read_inode_ok (s : Store) (i : Nat) (inode0 : INODE) (t : List INODE)
    (hi : i < N_INODES) (hf : s.read_fails s.n_reads = false)
    (hv : (s.block (i / N_INODES_PER_BLOCK + 1)).content.asInodes = some t) :
    oufs_read_inode_by_reference s i inode0 =
      some (0, t.getD (i % N_INODES_PER_BLOCK) zero_inode,
        { s with n_reads := s.n_reads + 1 }) := by
  have hb : i / N_INODES_PER_BLOCK + 1 < N_BLOCKS := by
    simp only [N_INODES, N_INODES_PER_BLOCK, N_INODE_BLOCKS, N_BLOCKS] at *
    omega
  unfold oufs_read_inode_by_reference
  rw [if_neg (by omega)]
  dsimp only
  rw [read_block_ok s _ _ hf hb]
  dsimp only
  rw [if_neg (by simp), hv]

/-- C1: on every store where the attach and every read and write succeed,
`oufs_format_disk` returns 0 and the root inode read back from the disk is a
DIRECTORY whose content is the root directory block; but that block, as
stored on the disk, is still the zero-filled block of the zeroing pass (the
block initialised in memory is never written): read as a directory it holds
`N_DIRECTORY_ENTRIES_PER_BLOCK` allocated entries, each with the empty name
and inode reference 0, and no entry `.` or `..`. -/
theorem format_root_directory_block_not_written (s : Store) (link0 : BLOCK) (inode0 : INODE)
    (ha : s.attach_status = 0) (hw : ∀ k, s.write_fails k = false)
    (hr : ∀ k, s.read_fails k = false) :
    ∃ s', oufs_format_disk s link0 = some (0, s') ∧
      (oufs_read_inode_by_reference s' ROOT_DIRECTORY_INODE inode0).map
        (fun r => (r.1, r.2.1.type, r.2.1.content)) =
        some (0, DIRECTORY_TYPE, ROOT_DIRECTORY_BLOCK) ∧
      s'.block ROOT_DIRECTORY_BLOCK = ⟨0, .zero⟩ ∧
      (s'.block ROOT_DIRECTORY_BLOCK).content.asDirectory =
        some (List.replicate N_DIRECTORY_ENTRIES_PER_BLOCK ⟨"", 0⟩) ∧
      list_collect_names (List.replicate N_DIRECTORY_ENTRIES_PER_BLOCK ⟨"", 0⟩) =
        List.replicate N_DIRECTORY_ENTRIES_PER_BLOCK "" := by
  refine ⟨_, oufs_format_disk_ok s link0 ha hw (hr _), ?_, ?_, ?_, ?_⟩
  · rw [read_inode_ok _ ROOT_DIRECTORY_INODE inode0
      ((List.replicate N_INODES_PER_BLOCK ⟨UNUSED_TYPE, 0, UNALLOCATED_BLOCK, 0⟩).set 0
        ⟨DIRECTORY_TYPE, 1, ROOT_DIRECTORY_BLOCK, 2⟩) (by decide) ?_ ?_]
    · rfl
    · exact hr _
    · rfl
  · rfl
  · rfl
  · decide

/-- The failing input of C1: a disk that was never written and on which no
call fails. -/
theorem format_root_directory_block_not_written_witness :
    ∃ s', oufs_format_disk (raw_store fun _ => false) ⟨0, .data []⟩ = some (0, s') ∧
      (oufs_read_inode_by_reference s' ROOT_DIRECTORY_INODE zero_inode).map
        (fun r => (r.1, r.2.1.type, r.2.1.content)) =
        some (0, DIRECTORY_TYPE, ROOT_DIRECTORY_BLOCK) ∧
      s'.block ROOT_DIRECTORY_BLOCK = ⟨0, .zero⟩ ∧
      (s'.block ROOT_DIRECTORY_BLOCK).content.asDirectory =
        some (List.replicate N_DIRECTORY_ENTRIES_PER_BLOCK ⟨"", 0⟩) ∧
      list_collect_names (List.replicate N_DIRECTORY_ENTRIES_PER_BLOCK ⟨"", 0⟩) =
        List.replicate N_DIRECTORY_ENTRIES_PER_BLOCK "" :=
  format_root_directory_block_not_written (raw_store fun _ => false) ⟨0, .data []⟩ zero_inode
    rfl (fun _ => rfl) (fun _ => rfl)


/-! ## `oufs_format_disk` when writes fail -/

theorem written_trans {k1 k2 : Nat} {keep : Nat → Prop} {s s' s'' : Store}
    (h1 : written k1 keep s s') (h2 : written k2 keep s' s'') :
    written (k1 + k2) keep s s'' := by
  obtain ⟨a1, b1, c1, d1, e1⟩ := h1
  obtain ⟨a2, b2, c2, d2, e2⟩ := h2
  refine ⟨a2.trans a1, b2.trans b1, c2.trans c1, ?_, ?_⟩
  · rw [d2, d1]; omega
  · intro r hr
    rw [e2 r hr, e1 r hr]

theorem written_mono {k : Nat} {keep : Nat → Prop} (keep' : Nat → Prop) {s s' : Store}
    (h : written k keep s s') (hk : ∀ r, keep' r → keep r) : written k keep' s s' :=
  ⟨h.1, h.2.1, h.2.2.1, h.2.2.2.1, fun r hr => h.2.2.2.2 r (hk r hr)⟩

theorem write_report_written (s : Store) (ref : Nat) (b : BLOCK) (p : PRINTED) :
    written 1 (fun r => r ≠ ref) s
      (if (virtual_disk_write_block s ref b).1 = -1 then
        fprintf (virtual_disk_write_block s ref b).2 p
      else (virtual_disk_write_block s ref b).2) := by
  unfold virtual_disk_write_block fprintf
  by_cases h : s.write_fails s.n_writes = true ∨ N_BLOCKS ≤ ref
  · simp only [if_pos h, if_true]
    exact ⟨rfl, rfl, rfl, rfl, fun _ _ => rfl⟩
  · simp only [if_neg h]
    rw [if_neg (by decide)]
    refine ⟨rfl, rfl, rfl, rfl, ?_⟩
    intro r hr
    simp only [if_neg hr]

theorem write_report_block (s : Store) (ref : Nat) (b : BLOCK) (p : PRINTED) :
    ((if (virtual_disk_write_block s ref b).1 = -1 then
        fprintf (virtual_disk_write_block s ref b).2 p
      else (virtual_disk_write_block s ref b).2).block ref = s.block ref ∧
      (s.write_fails s.n_writes = true ∨ N_BLOCKS ≤ ref)) ∨
    ((if (virtual_disk_write_block s ref b).1 = -1 then
        fprintf (virtual_disk_write_block s ref b).2 p
      else (virtual_disk_write_block s ref b).2).block ref = b ∧
      ¬ (s.write_fails s.n_writes = true ∨ N_BLOCKS ≤ ref)) := by
  unfold virtual_disk_write_block fprintf
  by_cases h : s.write_fails s.n_writes = true ∨ N_BLOCKS ≤ ref
  · left
    simp only [if_pos h, if_true]
    exact ⟨trivial, h⟩
  · right
    simp only [if_neg h]
    rw [if_neg (by decide)]
    simp only [if_true]
    exact ⟨trivial, h⟩

theorem format_link_blocks_written :
    ∀ (n cur next : Nat) (link : BLOCK) (s : Store),
      written n (fun r => r < cur) s (format_link_blocks n cur next link s).2
  | 0, _, _, _, s => by
    simp only [format_link_blocks]
    exact ⟨rfl, rfl, rfl, rfl, fun _ _ => rfl⟩
  | n + 1, cur, next, link, s => by
    simp only [format_link_blocks]
    have h1 := write_report_written s cur { link with next_block := next }
      ⟨"write to block error: oufs_lib -> oufs_format_disk\n", []⟩
    have h2 := format_link_blocks_written n (cur + 1) (next + 1) { link with next_block := next }
      (if (virtual_disk_write_block s cur { link with next_block := next }).1 = -1 then
        fprintf (virtual_disk_write_block s cur { link with next_block := next }).2
          ⟨"write to block error: oufs_lib -> oufs_format_disk\n", []⟩
      else (virtual_disk_write_block s cur { link with next_block := next }).2)
    have h3 := written_trans
      (written_mono (fun r => r < cur) h1 (fun r hr => by
        show r ≠ cur
        omega))
      (written_mono (fun r => r < cur) h2 (fun r hr => by
        show r < cur + 1
        omega))
    rw [Nat.add_comm 1 n] at h3
    exact h3

theorem format_inode_blocks_written (blk : BLOCK) :
    ∀ (n i : Nat) (s : Store),
      written n (fun r => r < i ∨ i + n ≤ r) s (format_inode_blocks blk n i s) ∧
      ∀ r, (format_inode_blocks blk n i s).block r = s.block r ∨
        (format_inode_blocks blk n i s).block r = blk
  | 0, _, s => by
    simp only [format_inode_blocks]
    exact ⟨⟨rfl, rfl, rfl, rfl, fun _ _ => rfl⟩, fun _ => Or.inl trivial⟩
  | n + 1, i, s => by
    simp only [format_inode_blocks]
    have h1 := write_report_written s i blk
      ⟨"Writing inode block error oufs_lib -> oufs_format_disk()\n", []⟩
    have hb := write_report_block s i blk
      ⟨"Writing inode block error oufs_lib -> oufs_format_disk()\n", []⟩
    have h2 := format_inode_blocks_written blk n (i + 1)
      (if (virtual_disk_write_block s i blk).1 = -1 then
        fprintf (virtual_disk_write_block s i blk).2
          ⟨"Writing inode block error oufs_lib -> oufs_format_disk()\n", []⟩
      else (virtual_disk_write_block s i blk).2)
    generalize (if (virtual_disk_write_block s i blk).1 = -1 then
        fprintf (virtual_disk_write_block s i blk).2
          ⟨"Writing inode block error oufs_lib -> oufs_format_disk()\n", []⟩
      else (virtual_disk_write_block s i blk).2) = s1 at h1 hb h2
    constructor
    · have h3 := written_trans
        (written_mono (fun r => r < i ∨ i + (n + 1) ≤ r) h1 (fun r hr => by
          show r ≠ i
          omega))
        (written_mono (fun r => r < i ∨ i + (n + 1) ≤ r) h2.1 (fun r hr => by
          show r < i + 1 ∨ i + 1 + n ≤ r
          omega))
      rw [Nat.add_comm 1 n] at h3
      exact h3
    · intro r
      rcases h2.2 r with h | h
      · by_cases hri : r = i
        · subst hri
          rcases hb with ⟨hb, _⟩ | ⟨hb, _⟩
          · left; rw [h, hb]
          · right; rw [h, hb]
        · left
          rw [h]
          exact h1.2.2.2.2 r hri
      · right; exact h

/-- The outcome of `oufs_format_disk` when the attach, the 128 writes of the
zeroing pass, the read and the write of the root inode (the write call
number 255) succeed, whatever the outcome of the 127 writes in between: the
function returns 0, the root directory block is the zero-filled block, and so
is the master block if its write (the call number 128) failed. -/
theorem oufs_format_disk_write_errors (s : Store) (link0 : BLOCK)
    (ha : s.attach_status = 0)
    (hz : ∀ k, k < N_BLOCKS → s.write_fails (s.n_writes + k) = false)
    (hlast : s.write_fails (s.n_writes + 255) = false)
    (hr : s.read_fails s.n_reads = false) :
    ∃ s', oufs_format_disk s link0 = some (0, s') ∧
      s'.block ROOT_DIRECTORY_BLOCK = ⟨0, .zero⟩ ∧
      (s.write_fails (s.n_writes + 128) = true →
        s'.block MASTER_BLOCK_REFERENCE = ⟨0, .zero⟩) := by
  unfold oufs_format_disk
  rw [if_neg (by simp [ha])]
  dsimp only
  rw [format_zero_blocks_ok ⟨0, .zero⟩ N_BLOCKS 0 s hz (by simp)]
  dsimp only
  rw [if_neg (by simp)]
  -- the master block
  have hm := write_report_written
    { s with block := fun r => if 0 ≤ r ∧ r < 0 + N_BLOCKS then ⟨0, .zero⟩ else s.block r,
             n_writes := s.n_writes + N_BLOCKS }
    MASTER_BLOCK_REFERENCE
    ⟨UNALLOCATED_BLOCK,
      .master { inode_allocated_flag := zero_master.inode_allocated_flag.set 0 0x80,
                unallocated_front := 6, unallocated_end := 127 }⟩
    ⟨"writing master block to disk error: oufs_lib -> oufs_format_disk\n", []⟩
  have hmb := write_report_block
    { s with block := fun r => if 0 ≤ r ∧ r < 0 + N_BLOCKS then ⟨0, .zero⟩ else s.block r,
             n_writes := s.n_writes + N_BLOCKS }
    MASTER_BLOCK_REFERENCE
    ⟨UNALLOCATED_BLOCK,
      .master { inode_allocated_flag := zero_master.inode_allocated_flag.set 0 0x80,
                unallocated_front := 6, unallocated_end := 127 }⟩
    ⟨"writing master block to disk error: oufs_lib -> oufs_format_disk\n", []⟩
  generalize (if (virtual_disk_write_block _ MASTER_BLOCK_REFERENCE _).1 = -1 then
      fprintf _ _ else _) = s2 at hm hmb ⊢
  -- the free-list links
  have hl := format_link_blocks_written (N_BLOCKS - 1 - 6) 6 7 link0 s2
  generalize format_link_blocks (N_BLOCKS - 1 - 6) 6 7 link0 s2 = l at hl ⊢
  have hw := write_report_written l.2 (N_BLOCKS - 1)
    { l.1 with next_block := UNALLOCATED_BLOCK } ⟨"write to block error\n", []⟩
  generalize (if (virtual_disk_write_block l.2 (N_BLOCKS - 1) _).1 = -1 then
      fprintf _ _ else _) = s4 at hw ⊢
  -- the inode table
  have hi := format_inode_blocks_written
    ⟨UNALLOCATED_BLOCK,
      .inodes (List.replicate N_INODES_PER_BLOCK ⟨UNUSED_TYPE, 0, UNALLOCATED_BLOCK, 0⟩)⟩
    N_INODE_BLOCKS 1 s4
  generalize format_inode_blocks _ N_INODE_BLOCKS 1 s4 = s5 at hi ⊢
  -- the writes between the zeroing pass and the root inode
  have h24 : written ((N_BLOCKS - 1 - 6) + 1) (fun r => r < 6) s2 s4 :=
    written_trans hl (written_mono _ hw (fun r hr => by
      show r ≠ N_BLOCKS - 1
      simp only [N_BLOCKS]
      omega))
  have h25 : written ((N_BLOCKS - 1 - 6) + 1 + N_INODE_BLOCKS) (fun r => r = 0 ∨ r = 5) s2 s5 :=
    written_trans
      (written_mono _ h24 (fun r hr => by
        show r < 6
        omega))
      (written_mono _ hi.1 (fun r hr => by
        show r < 1 ∨ 1 + N_INODE_BLOCKS ≤ r
        simp only [N_INODE_BLOCKS]
        omega))
  have h15 : written (1 + ((N_BLOCKS - 1 - 6) + 1 + N_INODE_BLOCKS)) (fun r => r = 5) _ s5 :=
    written_trans
      (written_mono _ hm (fun r hr => by
        show r ≠ MASTER_BLOCK_REFERENCE
        simp only [MASTER_BLOCK_REFERENCE]
        omega))
      (written_mono _ h25 (fun r hr => Or.inr hr))
  have h14 : written (1 + ((N_BLOCKS - 1 - 6) + 1)) (fun r => r = 1) _ s4 :=
    written_trans
      (written_mono _ hm (fun r hr => by
        show r ≠ MASTER_BLOCK_REFERENCE
        simp only [MASTER_BLOCK_REFERENCE]
        omega))
      (written_mono _ h24 (fun r hr => by
        show r < 6
        omega))
  obtain ⟨e1, e2, e3, e4, e5⟩ := h15
  have hrd : s5.read_fails s5.n_reads = false := by
    rw [e2, e3]; exact hr
  have hwr : s5.write_fails s5.n_writes = false := by
    rw [e1, e4]
    show s.write_fails (s.n_writes + N_BLOCKS + (1 + ((N_BLOCKS - 1 - 6) + 1 + N_INODE_BLOCKS)))
      = false
    exact hlast
  have hb5 : s5.block 5 = ⟨0, .zero⟩ := by
    rw [e5 5 rfl]
    rfl
  have hb0 : s.write_fails (s.n_writes + 128) = true → s5.block 0 = ⟨0, .zero⟩ := by
    intro hf
    rw [h25.2.2.2.2 0 (Or.inl rfl)]
    rcases hmb with ⟨h, _⟩ | ⟨_, h⟩
    · rw [show MASTER_BLOCK_REFERENCE = 0 from rfl] at h
      rw [h]
      rfl
    · exact absurd (Or.inl hf) h
  have hb1 : ∃ t, (s5.block (ROOT_DIRECTORY_INODE / N_INODES_PER_BLOCK + 1)).content.asInodes
      = some t := by
    rcases hi.2 1 with h | h
    · refine ⟨List.replicate N_INODES_PER_BLOCK zero_inode, ?_⟩
      show (s5.block 1).content.asInodes = _
      rw [h, h14.2.2.2.2 1 rfl]
      rfl
    · refine ⟨List.replicate N_INODES_PER_BLOCK ⟨UNUSED_TYPE, 0, UNALLOCATED_BLOCK, 0⟩, ?_⟩
      show (s5.block 1).content.asInodes = _
      rw [h]
      rfl
  obtain ⟨t, ht⟩ := hb1
  rw [write_inode_ok s5 ROOT_DIRECTORY_INODE _ t (by decide) hrd hwr ht]
  dsimp only
  rw [if_neg (by simp)]
  refine ⟨_, rfl, ?_, ?_⟩
  · unfold fprintf
    dsimp only
    rw [if_neg (by decide)]
    exact hb5
  · intro hf
    unfold fprintf
    dsimp only
    rw [if_neg (by decide)]
    exact hb0 hf

theorem free_list_walk_self_loop (block : Nat → BLOCK) (h : block 0 = ⟨0, .zero⟩) :
    ∀ fuel, free_list_walk block fuel 0 = List.replicate fuel 0
  | 0 => rfl
  | fuel + 1 => by
    simp only [free_list_walk, h, List.replicate_succ]
    rw [if_neg (by decide), free_list_walk_self_loop block h fuel]

/-- C2: on every store where the attach, the zeroing pass and the read and
write of the root inode succeed but the write of the master block (the write
call number 128) reports an error, `oufs_format_disk` returns 0 although
block 0 still is the zero-filled block: the head and the tail of the free
list read from the master block are 0 and 0, not 6 and 127, and following
`next_block` from the head visits block 0 again and again without reaching
the sentinel. -/
theorem format_returns_zero_without_master_block (s : Store) (link0 : BLOCK)
    (ha : s.attach_status = 0)
    (hz : ∀ k, k < N_BLOCKS → s.write_fails (s.n_writes + k) = false)
    (hm : s.write_fails (s.n_writes + 128) = true)
    (hlast : s.write_fails (s.n_writes + 255) = false)
    (hr : s.read_fails s.n_reads = false) :
    ∃ s', oufs_format_disk s link0 = some (0, s') ∧
      (s'.block MASTER_BLOCK_REFERENCE).content.asMaster.map
        (fun m => (m.unallocated_front, m.unallocated_end)) = some (0, 0) ∧
      ∀ fuel, free_list_walk s'.block fuel 0 = List.replicate fuel 0 := by
  obtain ⟨s', h1, _, h3⟩ := oufs_format_disk_write_errors s link0 ha hz hlast hr
  have h0 : s'.block 0 = ⟨0, .zero⟩ := h3 hm
  refine ⟨s', h1, ?_, free_list_walk_self_loop s'.block h0⟩
  show (s'.block 0).content.asMaster.map _ = _
  rw [h0]
  rfl

/-- The failing input of C2: a disk that was never written, on which the
write call number 128 (the master block) reports an error and every other
call succeeds. -/
theorem format_returns_zero_without_master_block_witness :
    (raw_store fun n => n == 128).write_fails 128 = true ∧
    ∃ s', oufs_format_disk (raw_store fun n => n == 128) ⟨0, .data []⟩ = some (0, s') ∧
      (s'.block MASTER_BLOCK_REFERENCE).content.asMaster.map
        (fun m => (m.unallocated_front, m.unallocated_end)) = some (0, 0) ∧
      ∀ fuel, free_list_walk s'.block fuel 0 = List.replicate fuel 0 :=
  ⟨rfl,
   format_returns_zero_without_master_block (raw_store fun n => n == 128) ⟨0, .data []⟩ rfl
    (fun k hk => by
      simp only [raw_store, N_BLOCKS] at *
      simp
      omega)
    rfl rfl rfl⟩

/-- C3: `oufs_format_disk` returns 0 on every store where the attach, the 128
writes of the zeroing pass and the read and write of the root inode succeed,
whatever the outcome of the 127 write calls in between (the master block, the
122 free-list links and the four inode-table blocks): an error of one of
these writes is printed and does not change the returned status. -/
theorem format_returns_zero_on_write_errors (s : Store) (link0 : BLOCK)
    (ha : s.attach_status = 0)
    (hz : ∀ k, k < N_BLOCKS → s.write_fails (s.n_writes + k) = false)
    (hlast : s.write_fails (s.n_writes + 255) = false)
    (hr : s.read_fails s.n_reads = false) :
    (oufs_format_disk s link0).map (fun r => r.1) = some 0 := by
  obtain ⟨s', h1, _, _⟩ := oufs_format_disk_write_errors s link0 ha hz hlast hr
  rw [h1]
  rfl

/-- The failing input of C3: a disk that was never written, on which the
write calls number 128 to 254 (all the writes after the zeroing pass except
the write of the root inode) report an error. -/
theorem format_returns_zero_on_write_errors_witness :
    (∀ n, 128 ≤ n → n < 255 →
      (raw_store fun n => decide (128 ≤ n ∧ n < 255)).write_fails n = true) ∧
    (oufs_format_disk (raw_store fun n => decide (128 ≤ n ∧ n < 255)) ⟨0, .data []⟩).map
      (fun r => r.1) = some 0 :=
  ⟨fun n h1 h2 => by
      simp only [raw_store]
      simp
      omega,
   format_returns_zero_on_write_errors (raw_store fun n => decide (128 ≤ n ∧ n < 255))
    ⟨0, .data []⟩ rfl
    (fun k hk => by
      simp only [raw_store, N_BLOCKS] at *
      simp
      omega)
    (by decide) rfl⟩

/-! ## `oufs_list` -/

theorem list_print_names_stderr : ∀ (names : List String) (s : Store),
    (list_print_names names s).stderr =
      s.stderr ++ names.map (fun n => (⟨"%s/\n", [.str n]⟩ : PRINTED))
  | [], s => by simp [list_print_names]
  | n :: ns, s => by
    simp [list_print_names, list_print_names_stderr ns, fprintf]

/-- C4: listing the root directory of `sample_store`, whose slots hold `.`,
`..`, `zeta`, `alpha`, `mid` in this order, `oufs_list` returns 0 and prints
the names in slot order, `zeta` before `alpha` and `mid`: the names are not
sorted. -/
theorem oufs_list_prints_in_slot_order :
    (oufs_list sample_store ⟨0, 0, 0, ""⟩ zero_inode ⟨0, .zero⟩).map
      (fun r => (r.1, r.2.stderr)) =
      some (0,
        [⟨"\tDEBUG: Child found (type=%s).\n", [.str "DIRECTORY"]⟩,
         ⟨"Num directories %d\n", [.int 5]⟩,
         ⟨"%s/\n", [.str "."]⟩,
         ⟨"%s/\n", [.str ".."]⟩,
         ⟨"%s/\n", [.str "zeta"]⟩,
         ⟨"%s/\n", [.str "alpha"]⟩,
         ⟨"%s/\n", [.str "mid"]⟩]) := by
  decide

/-- C5: when `oufs_find_file` leaves the child reference at
`UNALLOCATED_INODE`, `oufs_list` prints `Not found` and returns the status of
`oufs_find_file` unchanged; it returns 0 when that status is 0. -/
theorem oufs_list_returns_find_status (s : Store) (f : FIND) (node0 : INODE) (block0 : BLOCK)
    (h : f.child = UNALLOCATED_INODE) :
    ∃ s', oufs_list s f node0 block0 = some (f.ret, s') ∧
      (⟨"Not found\n", []⟩ : PRINTED) ∈ s'.stderr ∧ s'.block = s.block := by
  unfold oufs_list
  have hc : ¬ (f.ret = 0 ∧ f.child ≠ UNALLOCATED_INODE) := by
    intro hh
    exact hh.2 h
  dsimp only
  rw [if_neg hc]
  refine ⟨_, rfl, ?_, ?_⟩
  · split_ifs <;> simp [fprintf]
  · split_ifs <;> rfl

/-- The failing input of C5: the path `/nope` in `sample_store`, for which
`oufs_find_file` returns 0 with the root as parent and no child; `oufs_list`
returns 0. -/
theorem oufs_list_returns_find_status_witness :
    ∃ s', oufs_list sample_store ⟨0, 0, UNALLOCATED_INODE, "nope"⟩ zero_inode ⟨0, .zero⟩ =
        some (0, s') ∧
      (⟨"Not found\n", []⟩ : PRINTED) ∈ s'.stderr ∧ s'.block = sample_store.block :=
  oufs_list_returns_find_status sample_store ⟨0, 0, UNALLOCATED_INODE, "nope"⟩ zero_inode
    ⟨0, .zero⟩ rfl

/-- C6: in `sample_store` the entry `alpha` of the root directory references
inode 2, whose type is FILE, and `oufs_list` prints its name with the format
`"%s/\n"`, followed by `/` like the name of a directory. -/
theorem oufs_list_prints_separator_after_file :
    (oufs_read_inode_by_reference sample_store 2 zero_inode).map
      (fun r => (r.1, r.2.1.type)) = some (0, FILE_TYPE) ∧
    (oufs_list sample_store ⟨0, 0, 0, ""⟩ zero_inode ⟨0, .zero⟩).map
      (fun r => r.2.stderr.filter (fun p => decide (p.args = [.str "alpha"]))) =
      some [⟨"%s/\n", [.str "alpha"]⟩] := by
  decide

/-! ## `oufs_mkdir` and `oufs_rmdir` -/

/-- C7: `oufs_mkdir` returns -1 and leaves the disk as it is, whatever the
state and whatever `oufs_find_file` found: it never returns 0 and never adds
an entry. -/
theorem oufs_mkdir_always_fails (s : Store) (f : FIND) :
    (oufs_mkdir s f).1 = -1 ∧ (oufs_mkdir s f).2.block = s.block := by
  unfold oufs_mkdir
  dsimp only
  split_ifs <;> exact ⟨rfl, rfl⟩

/-- C8: whenever `oufs_find_file` returns a status of at least -1,
`oufs_rmdir` returns 0 and leaves the state as it is; the directory is not
looked at. -/
theorem oufs_rmdir_reports_success (s : Store) (f : FIND) (h : -1 ≤ f.ret) :
    oufs_rmdir s f = (0, s) := by
  unfold oufs_rmdir
  rw [if_neg (by omega)]

/-- The failing input of C8: the path `/zeta` in `sample_store`, a directory
(inode 1, block 6) that holds the entry `b` beyond `.` and `..`. -/
theorem oufs_rmdir_reports_success_witness :
    (-1 : Int) ≤ (⟨0, 0, 1, "zeta"⟩ : FIND).ret ∧
    (sample_store.block 6).content.asDirectory.map
      (fun d => list_collect_names d) = some [".", "..", "b"] ∧
    oufs_rmdir sample_store ⟨0, 0, 1, "zeta"⟩ = (0, sample_store) :=
  ⟨by decide, by decide, oufs_rmdir_reports_success sample_store ⟨0, 0, 1, "zeta"⟩ (by decide)⟩

end OUFS
